import Mathlib

/-!
Verification of the SAM-3 labeller annotation core: a shallow embedding of
the data model (src/types.ts), the detection normalizer and simulator
(src/services/geminiService.ts), the concept/annotation store mutations
(src/App.tsx) and the canvas gesture controller (src/unnamed/part_002),
together with theorems settling the specification claims.
Numbers are modelled as rationals; external effects (network outcome,
Math.random samples, Date.now) are explicit inputs.
-/

namespace SAM3

/-- Bounding box record, from `BoundingBox` in src/types.ts. -/
structure BoundingBox where
  ymin : ℚ
  xmin : ℚ
  ymax : ℚ
  xmax : ℚ
  deriving DecidableEq

/-- Normalized 2-D point, from `Point` in src/types.ts. -/
structure Pt where
  x : ℚ
  y : ℚ
  deriving DecidableEq

/-- Tool modes, from `ToolType` in src/types.ts. -/
inductive ToolType where
  | select
  | box
  | polygon
  | point
  deriving DecidableEq

/-- The TS `Annotation` record (src/types.ts), named `Ann` here.
Optional TS fields are `Option`; `type` defaults to box when `none`. -/
structure Ann where
  id : String
  conceptId : String
  box : BoundingBox
  type : Option ToolType := none
  points : Option (List Pt) := none
  confidence : ℚ
  isVerified : Bool
  isMasklet : Bool
  frameStart : Option ℚ := none
  frameEnd : Option ℚ := none
  spatialContext : Option String := none
  depthLayer : Option ℚ := none
  orientation : Option String := none
  deriving DecidableEq

/-- The TS `Concept` record (src/types.ts). -/
structure Concept where
  id : String
  name : String
  color : String
  presenceScore : ℚ
  instanceCount : ℕ
  isVisible : Bool
  deriving DecidableEq

/-! ## JavaScript defaulting operators

The normalizer uses `x || d` (default on any falsy value: for numbers this
includes 0, for strings the empty string) and `x ?? d` (default only on
null/undefined).  We embed both, with absence as `none`. -/

/-- JS `x || d` on an optional number: `none`, and a present 0, both default. -/
def jsOrNum (x : Option ℚ) (d : ℚ) : ℚ :=
  match x with
  | none => d
  | some v => if v = 0 then d else v

/-- JS `x || d` on an optional string: `none`, and a present `""`, both default. -/
def jsOrStr (x : Option String) (d : String) : String :=
  match x with
  | none => d
  | some s => if s = "" then d else s

/-- JS `x ?? d` on an optional number: only `none` defaults; 0 is preserved. -/
def jsNullishNum (x : Option ℚ) (d : ℚ) : ℚ :=
  match x with
  | none => d
  | some v => v

/-! ## Detection normalizer (src/services/geminiService.ts, `detectObjects`) -/

/-- Raw detection record produced by the backend (fields of `BOX_SCHEMA`);
every field is optional in the wire schema. -/
structure RawDetection where
  box_2d : List ℚ := []
  label : Option String := none
  confidence : Option ℚ := none
  spatial_context : Option String := none
  estimated_depth : Option ℚ := none
  orientation : Option String := none
  deriving DecidableEq

/-- One item of the `data.map` in `detectObjects`: raw box entries are divided
by 1000 in the external [ymin, xmin, ymax, xmax] order, `confidence` defaults
to 0.85 by `||`, `spatial_context`/`orientation` default to sentinel strings
by `||`, `estimated_depth` defaults to 5 by `??`, and `isVerified` is false.
`now` stands for `Date.now()`. -/
def normalizeDetection (prompt : String) (now : ℕ) (index : ℕ)
    (item : RawDetection) : Ann :=
  let box := item.box_2d
  { id := "gemini-" ++ toString now ++ "-" ++ toString index
    conceptId := prompt
    box :=
      { ymin := box.getD 0 0 / 1000
        xmin := box.getD 1 0 / 1000
        ymax := box.getD 2 0 / 1000
        xmax := box.getD 3 0 / 1000 }
    confidence := jsOrNum item.confidence 0.85
    isVerified := false
    isMasklet := true
    frameStart := some 0
    frameEnd := some 100
    spatialContext := some (jsOrStr item.spatial_context "Spatial analysis unavailable")
    depthLayer := some (jsNullishNum item.estimated_depth 5)
    orientation := some (jsOrStr item.orientation "Unknown") }

/-- Outcome of the backend exchange in `detectObjects`, as seen at the point
where the code branches: the `catch` arm (network/API/parse exception), a
falsy `response.text`, a `JSON.parse`d value that is not a sequence of
records (so that `.map` throws and is caught), or a parsed record list. -/
inductive ResponsePayload where
  | noText
  | malformed
  | parsed (raws : List RawDetection)
  deriving DecidableEq

/-- Backend call outcome: a thrown failure, or a response payload. -/
inductive BackendOutcome where
  | failure
  | response (p : ResponsePayload)
  deriving DecidableEq

/-- The `detectObjects` function (src/services/geminiService.ts): empty key,
thrown errors, missing text and malformed payloads all yield `[]`; a parsed
payload is normalized elementwise. -/
def detectObjects (apiKey : String) (now : ℕ) (prompt : String)
    (outcome : BackendOutcome) : List Ann :=
  if apiKey = "" then []
  else
    match outcome with
    | .failure => []
    | .response .noText => []
    | .response .malformed => []
    | .response (.parsed raws) =>
        (List.range raws.length).zipWith (fun i item => normalizeDetection prompt now i item) raws

/-! ## Simulator (src/services/geminiService.ts, `mockSAM3Detect`) -/

/-- The four `contexts` strings in `mockSAM3Detect`. -/
def CONTEXTS : List String :=
  ["Partially occluded", "In open space", "Near edge", "Cluster center"]

/-- The four `orientations` strings in `mockSAM3Detect`. -/
def ORIENTATIONS : List String :=
  ["Front", "Side-Profile", "Back", "Three-quarter"]

/-- One group of `Math.random()` samples consumed per simulated annotation. -/
structure MockRand where
  widthR : ℚ
  heightR : ℚ
  xR : ℚ
  yR : ℚ
  confR : ℚ
  depthR : ℚ
  ctxR : ℚ
  orientR : ℚ
  deriving DecidableEq

/-- The body of the `for` loop of `mockSAM3Detect`, with the `Math.random()`
samples of iteration `i` supplied in `r` and `Date.now()` as `now`.  Note
`isVerified` is `conf > 0.85`, not constantly false. -/
def mockAnn (concept : String) (now i : ℕ) (r : MockRand) : Ann :=
  let width := r.widthR * 0.2 + 0.05
  let height := r.heightR * 0.3 + 0.1
  let x := r.xR * (1 - width)
  let y := r.yR * (1 - height)
  let conf := r.confR * 0.4 + 0.6
  { id := "sam3-" ++ toString now ++ "-" ++ toString i
    conceptId := concept
    box := { ymin := y, xmin := x, ymax := y + height, xmax := x + width }
    confidence := conf
    isVerified := decide (conf > 0.85)
    isMasklet := true
    frameStart := some 0
    frameEnd := some 100
    spatialContext := some (CONTEXTS.getD (Int.toNat ⌊r.ctxR * 4⌋) "")
    depthLayer := some ((Int.toNat ⌊r.depthR * 10⌋ : ℕ) : ℚ)
    orientation := some (ORIENTATIONS.getD (Int.toNat ⌊r.orientR * 4⌋) "") }

/-- The `mockSAM3Detect` function: `count` models the random
`Math.floor(Math.random() * 5) + 2` loop bound and `r` the per-iteration
random samples. -/
def mockSAM3Detect (concept : String) (now : ℕ) (count : ℕ)
    (r : ℕ → MockRand) : List Ann :=
  (List.range count).map (fun i => mockAnn concept now i (r i))

/-! ## Concept-id derivation (src/App.tsx, `handleConceptSubmit`)

`inputValue.trim()` then `.toLowerCase().replace(/\s+/g, '-')`. -/

/-- JS `String.prototype.trim`: strip leading and trailing whitespace. -/
def jsTrim (s : String) : String :=
  String.mk (((s.toList.dropWhile Char.isWhitespace).reverse.dropWhile
    Char.isWhitespace).reverse)

/-- Replace each maximal run of whitespace by a single hyphen, the effect of
`.replace(/\s+/g, '-')`.  The flag records whether we are inside a run. -/
def collapseWsAux : Bool → List Char → List Char
  | _, [] => []
  | inRun, c :: rest =>
      if c.isWhitespace then
        (if inRun then [] else ['-']) ++ collapseWsAux true rest
      else
        c :: collapseWsAux false rest

/-- Derived concept id: lowercase, whitespace runs to hyphens (applied to the
already-trimmed name, as in the source). -/
def deriveConceptId (name : String) : String :=
  String.mk (collapseWsAux false (name.toList.map Char.toLower))

/-! ## Annotation/Concept store (src/App.tsx) -/

/-- The `COLORS` palette of src/App.tsx. -/
def COLORS : List String :=
  ["#6366f1", "#ec4899", "#10b981", "#f59e0b", "#3b82f6", "#8b5cf6", "#14b8a6"]

/-- The store: the `concepts` and `annotations` React state of `App`. -/
structure AppState where
  concepts : List Concept
  annotations : List Ann
  deriving DecidableEq

/-- Initial store: both `useState` calls start from `[]`. -/
def initState : AppState := { concepts := [], annotations := [] }

/-- Live annotations referencing a concept id. -/
def liveCount (anns : List Ann) (cid : String) : ℕ :=
  (anns.filter (fun a => a.conceptId == cid)).length

/-- `handleConceptSubmit`: empty trimmed input and id collisions are silent
no-ops; otherwise a concept is appended with the round-robin palette color,
`instanceCount` set to the batch size and `presenceScore` to the mean batch
confidence (0.1 for an empty batch), and the batch is appended with every
`conceptId` remapped to the new id.  `detected` is the detector output
(live backend or simulator), an external input here. -/
def submitConcept (s : AppState) (rawName : String) (detected : List Ann) :
    AppState :=
  let name := jsTrim rawName
  if name = "" then s
  else
    let cid := deriveConceptId name
    if s.concepts.any (fun c => c.id == cid) then s
    else
      let newAnns := detected.map (fun a => { a with conceptId := cid })
      let pres : ℚ :=
        if 0 < newAnns.length then
          (newAnns.map Ann.confidence).sum / (newAnns.length : ℚ)
        else 0.1
      { concepts := s.concepts ++
          [{ id := cid
             name := name
             color := COLORS.getD (s.concepts.length % COLORS.length) ""
             presenceScore := pres
             instanceCount := newAnns.length
             isVisible := true }]
        annotations := s.annotations ++ newAnns }

/-- `toggleVisibility`: flip `isVisible` on the matching concept. -/
def toggleVisibility (s : AppState) (cid : String) : AppState :=
  { s with concepts :=
      s.concepts.map (fun c =>
        if c.id == cid then { c with isVisible := !c.isVisible } else c) }

/-- `deleteConcept`: drop the concept and every annotation referencing it. -/
def deleteConcept (s : AppState) (cid : String) : AppState :=
  { concepts := s.concepts.filter (fun c => !(c.id == cid))
    annotations := s.annotations.filter (fun a => !(a.conceptId == cid)) }

/-- `verifyMask`: set `isVerified` on the matching annotation. -/
def verifyMask (s : AppState) (rid : String) : AppState :=
  { s with annotations :=
      s.annotations.map (fun a =>
        if a.id == rid then { a with isVerified := true } else a) }

/-- `rejectMask`: drop the annotations with the given id, and set the
`instanceCount` of the concept found via `annotations.find(...)?.conceptId`
to the count of remaining annotations referencing it (both computed from the
pre-removal list, as the source closure does).  `presenceScore` is not
recomputed. -/
def rejectMask (s : AppState) (rid : String) : AppState :=
  { annotations := s.annotations.filter (fun a => !(a.id == rid))
    concepts :=
      s.concepts.map (fun c =>
        match s.annotations.find? (fun a => a.id == rid) with
        | some t =>
            if c.id == t.conceptId then
              { c with instanceCount :=
                  (s.annotations.filter
                    (fun a => a.conceptId == c.id && !(a.id == rid))).length }
            else c
        | none => c) }

/-- The five public store mutations of src/App.tsx. -/
inductive StoreOp where
  | submit (rawName : String) (detected : List Ann)
  | verify (rid : String)
  | reject (rid : String)
  | deleteC (cid : String)
  | toggleV (cid : String)

/-- Apply one mutation. -/
def applyOp (s : AppState) : StoreOp → AppState
  | .submit rawName detected => submitConcept s rawName detected
  | .verify rid => verifyMask s rid
  | .reject rid => rejectMask s rid
  | .deleteC cid => deleteConcept s cid
  | .toggleV cid => toggleVisibility s cid

/-- Apply a sequence of mutations. -/
def runOps (s : AppState) : List StoreOp → AppState
  | [] => s
  | op :: rest => runOps (applyOp s op) rest

/-- A detector batch is fresh when its ids are pairwise distinct and unseen:
the id-generation contract of the normalizer/simulator (timestamp + index). -/
def freshBatch (s : AppState) (detected : List Ann) : Bool :=
  decide ((detected.map Ann.id).Nodup) &&
    detected.all (fun a => s.annotations.all (fun b => !(a.id == b.id)))

/-- Batch freshness is the only side condition on a mutation. -/
def validOp (s : AppState) : StoreOp → Bool
  | .submit _ detected => freshBatch s detected
  | _ => true

/-- A trace is valid when every submission's batch is fresh at its point. -/
def validTrace (s : AppState) : List StoreOp → Bool
  | [] => true
  | op :: rest => validOp s op && validTrace (applyOp s op) rest

/-- Store consistency: every concept's `instanceCount` equals its live
annotation count. -/
def Consistent (s : AppState) : Prop :=
  ∀ c ∈ s.concepts, c.instanceCount = liveCount s.annotations c.id

/-- No orphan annotations: every annotation references a present concept. -/
def NoOrphans (s : AppState) : Prop :=
  ∀ a ∈ s.annotations, ∃ c ∈ s.concepts, c.id = a.conceptId

/-- The full store invariant: consistency, orphan-freedom and pairwise
distinct annotation ids. -/
def Invariant (s : AppState) : Prop :=
  Consistent s ∧ NoOrphans s ∧ (s.annotations.map Ann.id).Nodup

/-! ## Gesture controller (drawing `SemanticCanvas`, src/unnamed/part_002) -/

/-- `getRelativeCoords`: the click ratio clamped into the unit square by
`Math.max(0, Math.min(1, ...))` per axis. -/
def clampPt (x y : ℚ) : Pt :=
  { x := max 0 (min 1 x), y := max 0 (min 1 y) }

/-- The synthetic point-tool box of `handleMouseDown`: `coords ± 0.01`,
built without any clamping. -/
def pointToolBox (p : Pt) : BoundingBox :=
  { xmin := p.x - 0.01, ymin := p.y - 0.01, xmax := p.x + 0.01, ymax := p.y + 0.01 }

/-- The box-tool box of `handleMouseUp`: coordinatewise min/max of the two
accumulated corners. -/
def dragBox (s e : Pt) : BoundingBox :=
  { xmin := min s.x e.x, ymin := min s.y e.y, xmax := max s.x e.x, ymax := max s.y e.y }

/-- `Math.min` over a list, seeded from its head (the commit path guarantees
nonemptiness; the default is never read there). -/
def listMin (l : List ℚ) : ℚ :=
  match l with
  | [] => 0
  | v :: vs => vs.foldl min v

/-- `Math.max` over a list, seeded from its head. -/
def listMax (l : List ℚ) : ℚ :=
  match l with
  | [] => 0
  | v :: vs => vs.foldl max v

/-- The polygon box of `handleDoubleClick`: min/max over the vertices. -/
def polygonBox (pts : List Pt) : BoundingBox :=
  { xmin := listMin (pts.map Pt.x)
    ymin := listMin (pts.map Pt.y)
    xmax := listMax (pts.map Pt.x)
    ymax := listMax (pts.map Pt.y) }

/-- The `Partial Annotation` argument passed to `onAddAnnotation`. -/
structure DrawCommit where
  type : ToolType
  box : BoundingBox
  points : Option (List Pt) := none
  conceptId : String
  deriving DecidableEq

/-- The drawing canvas's state: the `selectedTool`/`activeConceptId` props,
the `isDrawing`/`currentPoints` local state, and the accumulated
`onAddAnnotation` calls. -/
structure CanvasState where
  selectedTool : ToolType
  activeConceptId : Option String
  isDrawing : Bool
  currentPoints : List Pt
  committed : List DrawCommit
  deriving DecidableEq

/-- Initial canvas: select tool, no active concept, nothing drawn. -/
def initCanvas : CanvasState :=
  { selectedTool := .select, activeConceptId := none, isDrawing := false
    currentPoints := [], committed := [] }

/-- Canvas inputs: prop changes from the parent (tool switch, concept
selection) and pointer events with their raw relative ratio. -/
inductive CanvasIn where
  | setTool (t : ToolType)
  | setConcept (c : Option String)
  | mouseDown (x y : ℚ)
  | mouseMove (x y : ℚ)
  | mouseUp (x y : ℚ)
  | doubleClick

/-- One step of the gesture controller, following `handleMouseDown`,
`handleMouseMove`, `handleMouseUp` and `handleDoubleClick` of the drawing
`SemanticCanvas`.  Tool and concept changes come from the parent as prop
updates; the component has no effect hook reacting to them, so they change
nothing but the prop itself. -/
def canvasStep (s : CanvasState) : CanvasIn → CanvasState
  | .setTool t => { s with selectedTool := t }
  | .setConcept c => { s with activeConceptId := c }
  | .mouseDown x y =>
      match s.activeConceptId, s.selectedTool with
      | none, _ => s
      | some _, .select => s
      | some _, .box =>
          { s with isDrawing := true, currentPoints := [clampPt x y, clampPt x y] }
      | some cid, .point =>
          { s with isDrawing := false
                   committed := s.committed ++
                     [{ type := .point
                        box := pointToolBox (clampPt x y)
                        points := some [clampPt x y]
                        conceptId := cid }] }
      | some _, .polygon =>
          { s with isDrawing := true
                   currentPoints := s.currentPoints ++ [clampPt x y] }
  | .mouseMove x y =>
      if s.isDrawing then
        match s.selectedTool with
        | .box =>
            { s with currentPoints :=
                [s.currentPoints.headD (clampPt 0 0), clampPt x y] }
        | _ => s
      else s
  | .mouseUp _ _ =>
      if !s.isDrawing then s
      else
        match s.activeConceptId, s.selectedTool with
        | none, _ => s
        | some _, .select => s
        | some cid, .box =>
            let start := s.currentPoints.headD (clampPt 0 0)
            let stop := (s.currentPoints.drop 1).headD (clampPt 0 0)
            let b := dragBox start stop
            let committed' :=
              if 0.01 < b.xmax - b.xmin ∧ 0.01 < b.ymax - b.ymin then
                s.committed ++ [{ type := .box, box := b, conceptId := cid }]
              else s.committed
            { s with isDrawing := false, currentPoints := [], committed := committed' }
        | some _, _ => s
  | .doubleClick =>
      match s.activeConceptId, s.selectedTool with
      | some cid, .polygon =>
          if 3 ≤ s.currentPoints.length then
            { s with isDrawing := false
                     currentPoints := []
                     committed := s.committed ++
                       [{ type := .polygon
                          box := polygonBox s.currentPoints
                          points := some s.currentPoints
                          conceptId := cid }] }
          else s
      | _, _ => s

/-- Run a sequence of canvas inputs. -/
def runCanvas (s : CanvasState) : List CanvasIn → CanvasState
  | [] => s
  | i :: rest => runCanvas (canvasStep s i) rest

/-! ## Verify/reject affordances (`SemanticCanvas` tooltip) -/

/-- The two tooltip buttons. -/
inductive Affordance where
  | verifyBtn
  | rejectBtn
  deriving DecidableEq

/-- The affordances offered for an annotation in the hover tooltip: the JSX
guards the verify and the reject button together behind `!ann.isVerified`. -/
def tooltipAffordances (a : Ann) : List Affordance :=
  if a.isVerified then [] else [.verifyBtn, .rejectBtn]

/-! ## Predicates and concrete data used by the claim statements -/

/-- A point lies in the closed unit square. -/
def InUnit (p : Pt) : Prop := 0 ≤ p.x ∧ p.x ≤ 1 ∧ 0 ≤ p.y ∧ p.y ≤ 1

/-- The claimed box invariant: all four fields in [0,1] and ordered. -/
def BoxOk (b : BoundingBox) : Prop :=
  0 ≤ b.ymin ∧ b.ymin ≤ b.ymax ∧ b.ymax ≤ 1 ∧
  0 ≤ b.xmin ∧ b.xmin ≤ b.xmax ∧ b.xmax ≤ 1

/-- The `Math.random()` samples of one simulated annotation are unit-range. -/
def MockRandOk (r : MockRand) : Prop :=
  0 ≤ r.widthR ∧ r.widthR ≤ 1 ∧ 0 ≤ r.heightR ∧ r.heightR ≤ 1 ∧
  0 ≤ r.xR ∧ r.xR ≤ 1 ∧ 0 ≤ r.yR ∧ r.yR ≤ 1

/-- Concrete annotation for the C2 witness store. -/
def c2A1 : Ann :=
  { id := "a1", conceptId := "red-car"
    box := { ymin := 0, xmin := 0, ymax := 1, xmax := 1 }
    confidence := 0.9, isVerified := false, isMasklet := true }

/-- Concrete two-concept, three-annotation store for the C2 witness. -/
def c2Store : AppState :=
  { concepts :=
      [{ id := "red-car", name := "Red Car", color := "#6366f1"
         presenceScore := 0.8, instanceCount := 2, isVisible := true },
       { id := "tree", name := "Tree", color := "#ec4899"
         presenceScore := 0.7, instanceCount := 1, isVisible := true }]
    annotations :=
      [c2A1,
       { id := "a2", conceptId := "red-car"
         box := { ymin := 0, xmin := 0, ymax := 1, xmax := 1 }
         confidence := 0.7, isVerified := true, isMasklet := true },
       { id := "a3", conceptId := "tree"
         box := { ymin := 0, xmin := 0, ymax := 1, xmax := 1 }
         confidence := 0.6, isVerified := false, isMasklet := true }] }

/-- Concrete detector outputs for the C1 witness trace. -/
def demoDetA : Ann :=
  { id := "a1", conceptId := ""
    box := { ymin := 0, xmin := 0, ymax := 1, xmax := 1 }
    confidence := 0.9, isVerified := false, isMasklet := true }

/-- Second detector output of the first demo batch. -/
def demoDetB : Ann :=
  { id := "a2", conceptId := ""
    box := { ymin := 0.2, xmin := 0.2, ymax := 0.5, xmax := 0.6 }
    confidence := 0.7, isVerified := false, isMasklet := true }

/-- Detector output of the second demo batch. -/
def demoDetC : Ann :=
  { id := "b1", conceptId := ""
    box := { ymin := 0.1, xmin := 0.1, ymax := 0.3, xmax := 0.3 }
    confidence := 0.8, isVerified := false, isMasklet := true }

/-- A demo trace exercising every public mutation. -/
def demoOps : List StoreOp :=
  [.submit "Red Car" [demoDetA, demoDetB],
   .verify "a1",
   .submit "Tree" [demoDetC],
   .reject "a2",
   .toggleV "red-car",
   .deleteC "tree"]

/-! ## Claim C4: normalizer example and defaulting -/

/-- C4: normalizing the raw detection with `box_2d` [100,200,400,600] and
confidence 0.77 under the 1000 divisor yields the box
(ymin 0.1, xmin 0.2, ymax 0.4, xmax 0.6) — external order preserved, each
entry divided — with confidence 0.77 and isVerified false; and for every
raw detection, a missing confidence defaults to 0.85, a missing spatial
context and orientation default to their sentinel strings, and a missing
depth layer defaults to 5. -/
theorem C4_normalizer_example_and_defaults (prompt : String) (now index : ℕ)
    (item : RawDetection) :
    ((normalizeDetection prompt now index
        { box_2d := [100, 200, 400, 600], confidence := some 0.77 }).box =
          { ymin := 0.1, xmin := 0.2, ymax := 0.4, xmax := 0.6 } ∧
      (normalizeDetection prompt now index
        { box_2d := [100, 200, 400, 600], confidence := some 0.77 }).confidence = 0.77 ∧
      (normalizeDetection prompt now index
        { box_2d := [100, 200, 400, 600], confidence := some 0.77 }).isVerified = false) ∧
    (item.confidence = none →
      (normalizeDetection prompt now index item).confidence = 0.85) ∧
    (item.spatial_context = none →
      (normalizeDetection prompt now index item).spatialContext =
        some "Spatial analysis unavailable") ∧
    (item.orientation = none →
      (normalizeDetection prompt now index item).orientation = some "Unknown") ∧
    (item.estimated_depth = none →
      (normalizeDetection prompt now index item).depthLayer = some 5) := by
  refine ⟨⟨?_, ?_, rfl⟩, fun h => ?_, fun h => ?_, fun h => ?_, fun h => ?_⟩
  · norm_num [normalizeDetection]
  · norm_num [normalizeDetection, jsOrNum]
  · simp [normalizeDetection, jsOrNum, h]
  · simp [normalizeDetection, jsOrStr, h]
  · simp [normalizeDetection, jsOrStr, h]
  · simp [normalizeDetection, jsNullishNum, h]

/-- Witness for C4 at a concrete all-defaults raw detection. -/
theorem C4_witness :
    (normalizeDetection "cat" 7 0 {}).confidence = 0.85 ∧
    (normalizeDetection "cat" 7 0 {}).spatialContext =
      some "Spatial analysis unavailable" ∧
    (normalizeDetection "cat" 7 0 {}).orientation = some "Unknown" ∧
    (normalizeDetection "cat" 7 0 {}).depthLayer = some 5 :=
  ⟨(C4_normalizer_example_and_defaults "cat" 7 0 {}).2.1 rfl,
   (C4_normalizer_example_and_defaults "cat" 7 0 {}).2.2.1 rfl,
   (C4_normalizer_example_and_defaults "cat" 7 0 {}).2.2.2.1 rfl,
   (C4_normalizer_example_and_defaults "cat" 7 0 {}).2.2.2.2 rfl⟩

/-! ## Claim C5: failure inputs normalize to the empty sequence -/

/-- C5: a thrown backend/network failure, an absent or empty response text,
and a malformed (unparsable) payload each make `detectObjects` return the
empty annotation list; the function is total, so no exception crosses the
boundary (a missing API key also yields the empty list). -/
theorem C5_failures_yield_empty (apiKey prompt : String) (now : ℕ)
    (outcome : BackendOutcome) :
    detectObjects apiKey now prompt .failure = [] ∧
    detectObjects apiKey now prompt (.response .noText) = [] ∧
    detectObjects apiKey now prompt (.response .malformed) = [] ∧
    detectObjects "" now prompt outcome = [] := by
  unfold detectObjects
  by_cases h : apiKey = "" <;> simp [h]

/-! ## Claim C10: defaulting is by JS falsiness, not absence -/

/-- C10: the normalizer defaults by JS truthiness for `confidence`,
`spatial_context` and `orientation` (a present 0 or empty string is
replaced by the default) but by nullish coalescing for `estimated_depth`
(a present 0 is preserved). -/
theorem C10_falsy_defaulting (prompt : String) (now index : ℕ)
    (item : RawDetection) :
    (item.confidence = some 0 →
      (normalizeDetection prompt now index item).confidence = 0.85) ∧
    (item.spatial_context = some "" →
      (normalizeDetection prompt now index item).spatialContext =
        some "Spatial analysis unavailable") ∧
    (item.orientation = some "" →
      (normalizeDetection prompt now index item).orientation = some "Unknown") ∧
    (item.estimated_depth = some 0 →
      (normalizeDetection prompt now index item).depthLayer = some 0) := by
  refine ⟨fun h => ?_, fun h => ?_, fun h => ?_, fun h => ?_⟩ <;>
    simp [normalizeDetection, jsOrNum, jsOrStr, jsNullishNum, h]

/-- Witness for C10 at a raw detection with falsy-but-present fields. -/
theorem C10_witness :
    (normalizeDetection "cat" 7 0
      { confidence := some 0, spatial_context := some "",
        orientation := some "", estimated_depth := some 0 }).confidence = 0.85 ∧
    (normalizeDetection "cat" 7 0
      { confidence := some 0, spatial_context := some "",
        orientation := some "", estimated_depth := some 0 }).spatialContext =
      some "Spatial analysis unavailable" ∧
    (normalizeDetection "cat" 7 0
      { confidence := some 0, spatial_context := some "",
        orientation := some "", estimated_depth := some 0 }).orientation =
      some "Unknown" ∧
    (normalizeDetection "cat" 7 0
      { confidence := some 0, spatial_context := some "",
        orientation := some "", estimated_depth := some 0 }).depthLayer = some 0 :=
  ⟨(C10_falsy_defaulting "cat" 7 0 _).1 rfl,
   (C10_falsy_defaulting "cat" 7 0 _).2.1 rfl,
   (C10_falsy_defaulting "cat" 7 0 _).2.2.1 rfl,
   (C10_falsy_defaulting "cat" 7 0 _).2.2.2 rfl⟩

/-! ## Claim C3: isVerified on the detection path -/

/-- C3 counterexample: a simulator run whose confidence sample is 0.9
produces confidence 0.9 * 0.4 + 0.6 = 0.96 > 0.85, hence isVerified true —
so the simulator does not always initialize isVerified to false. -/
theorem C3_counterexample :
    ((mockSAM3Detect "person" 0 1 (fun _ =>
        { widthR := 0.5, heightR := 0.5, xR := 0.5, yR := 0.5, confR := 0.9,
          depthR := 0.5, ctxR := 0.5, orientR := 0.5 })).map Ann.isVerified) =
      [true] := by
  norm_num [mockSAM3Detect, mockAnn, List.range_succ]

/-- C3 amended: every annotation from the live-backend normalizer has
isVerified false regardless of the input confidence, but the simulator sets
isVerified to (confidence > 0.85), so its annotations with confidence above
0.85 start out verified. -/
theorem C3_amended (prompt : String) (now index : ℕ) (item : RawDetection)
    (concept : String) (nowM count : ℕ) (r : ℕ → MockRand) :
    (normalizeDetection prompt now index item).isVerified = false ∧
    ∀ a ∈ mockSAM3Detect concept nowM count r,
      (a.isVerified = true ↔ 0.85 < a.confidence) := by
  refine ⟨rfl, fun a ha => ?_⟩
  simp only [mockSAM3Detect, List.mem_map, List.mem_range] at ha
  obtain ⟨i, -, rfl⟩ := ha
  simp [mockAnn]

/-- Witness for C3's amended theorem at a concrete simulator batch. -/
theorem C3_witness :
    (mockAnn "person" 3 0
        { widthR := 0.5, heightR := 0.5, xR := 0.5, yR := 0.5, confR := 0.9,
          depthR := 0.5, ctxR := 0.5, orientR := 0.5 }).isVerified = true ↔
      (0.85 : ℚ) <
        (mockAnn "person" 3 0
          { widthR := 0.5, heightR := 0.5, xR := 0.5, yR := 0.5, confR := 0.9,
            depthR := 0.5, ctxR := 0.5, orientR := 0.5 }).confidence :=
  (C3_amended "cat" 0 0 {} "person" 3 1 (fun _ =>
      { widthR := 0.5, heightR := 0.5, xR := 0.5, yR := 0.5, confR := 0.9,
        depthR := 0.5, ctxR := 0.5, orientR := 0.5 })).2 _
    (by simp [mockSAM3Detect, List.range_succ])

/-! ## Claim C8: verify/reject affordances -/

/-- C8 counterexample: for a verified annotation the tooltip offers no
affordance at all — in particular reject is not available, contradicting
the claim that only reject remains after verification. -/
theorem C8_counterexample :
    Affordance.rejectBtn ∉ tooltipAffordances
      { id := "a1", conceptId := "c",
        box := { ymin := 0, xmin := 0, ymax := 1, xmax := 1 },
        confidence := 1, isVerified := true, isMasklet := true } := by
  simp [tooltipAffordances]

/-- C8 amended: the verify and the reject affordance are each offered
exactly while isVerified is false; once verified, neither remains. -/
theorem C8_amended (a : Ann) :
    (Affordance.verifyBtn ∈ tooltipAffordances a ↔ a.isVerified = false) ∧
    (Affordance.rejectBtn ∈ tooltipAffordances a ↔ a.isVerified = false) := by
  cases h : a.isVerified <;> simp [tooltipAffordances, h]

/-! ## Claim C9: tool switch / concept deselection while drawing -/

/-- C9 counterexample: with the polygon tool, one click at (0.1,0.1)
followed by a switch to the select tool leaves the accumulated point in
place, and after switching back two more clicks and a double-click commit a
polygon containing the pre-switch point — the in-progress shape is neither
discarded nor kept out of a later gesture. -/
theorem C9_counterexample :
    (runCanvas initCanvas [.setConcept (some "cat"), .setTool .polygon,
        .mouseDown 0.1 0.1, .setTool .select]).currentPoints =
      [{ x := 0.1, y := 0.1 }] ∧
    ((runCanvas initCanvas [.setConcept (some "cat"), .setTool .polygon,
        .mouseDown 0.1 0.1, .setTool .select, .setTool .polygon,
        .mouseDown 0.3 0.1, .mouseDown 0.2 0.3, .doubleClick]).committed.map
          (fun d => d.points)) =
      [some [{ x := 0.1, y := 0.1 }, { x := 0.3, y := 0.1 },
             { x := 0.2, y := 0.3 }]] := by
  constructor <;>
    norm_num [runCanvas, canvasStep, initCanvas, clampPt, polygonBox,
      listMin, listMax]

/-- C9 amended: switching the tool or changing the active concept commits
nothing at that moment, but it also does not discard the in-progress
gesture: the drawing flag and the accumulated points survive unchanged and
can be absorbed into a later gesture's commit. -/
theorem C9_amended (s : CanvasState) (t : ToolType) (c : Option String) :
    (canvasStep s (.setTool t)).committed = s.committed ∧
    (canvasStep s (.setTool t)).currentPoints = s.currentPoints ∧
    (canvasStep s (.setTool t)).isDrawing = s.isDrawing ∧
    (canvasStep s (.setConcept c)).committed = s.committed ∧
    (canvasStep s (.setConcept c)).currentPoints = s.currentPoints ∧
    (canvasStep s (.setConcept c)).isDrawing = s.isDrawing :=
  ⟨rfl, rfl, rfl, rfl, rfl, rfl⟩

/-! ## Claim C6: bounding-box range invariant -/

/-- A left fold of `min` never exceeds its seed. -/
lemma foldl_min_le_init (v : ℚ) (l : List ℚ) : l.foldl min v ≤ v := by
  induction l generalizing v with
  | nil => simp
  | cons x xs ih => exact le_trans (ih (min v x)) (min_le_left v x)

/-- A lower bound on the seed and the elements bounds a `min` fold. -/
lemma le_foldl_min (lo v : ℚ) (l : List ℚ) (hv : lo ≤ v)
    (hl : ∀ x ∈ l, lo ≤ x) : lo ≤ l.foldl min v := by
  induction l generalizing v with
  | nil => simpa
  | cons x xs ih =>
      exact ih (min v x) (le_min hv (hl x (by simp)))
        (fun y hy => hl y (by simp [hy]))

/-- A left fold of `max` is at least its seed. -/
lemma init_le_foldl_max (v : ℚ) (l : List ℚ) : v ≤ l.foldl max v := by
  induction l generalizing v with
  | nil => simp
  | cons x xs ih => exact le_trans (le_max_left v x) (ih (max v x))

/-- An upper bound on the seed and the elements bounds a `max` fold. -/
lemma foldl_max_le (hi v : ℚ) (l : List ℚ) (hv : v ≤ hi)
    (hl : ∀ x ∈ l, x ≤ hi) : l.foldl max v ≤ hi := by
  induction l generalizing v with
  | nil => simpa
  | cons x xs ih =>
      exact ih (max v x) (max_le hv (hl x (by simp)))
        (fun y hy => hl y (by simp [hy]))

/-- Bounds on the elements of a nonempty list bound its min/max envelope. -/
lemma listMin_listMax_bounds (lo hi : ℚ) (l : List ℚ) (hne : l ≠ [])
    (h : ∀ x ∈ l, lo ≤ x ∧ x ≤ hi) :
    lo ≤ listMin l ∧ listMin l ≤ listMax l ∧ listMax l ≤ hi := by
  match l, hne with
  | v :: vs, _ =>
      refine ⟨le_foldl_min lo v vs (h v (by simp)).1
          (fun y hy => (h y (by simp [hy])).1), ?_, ?_⟩
      · exact le_trans (foldl_min_le_init v vs) (init_le_foldl_max v vs)
      · exact foldl_max_le hi v vs (h v (by simp)).2
          (fun y hy => (h y (by simp [hy])).2)

/-- C6 counterexample: with the point tool, a click clamped to the image
corner (1,1) commits an annotation whose box is (0.99, 0.99, 1.01, 1.01) —
the xmax and ymax of 1.01 lie outside [0,1]. -/
theorem C6_counterexample :
    ((runCanvas initCanvas [.setConcept (some "cat"), .setTool .point,
        .mouseDown 1 1]).committed.map (fun d => d.box)) =
      [{ ymin := 99/100, xmin := 99/100, ymax := 101/100, xmax := 101/100 }] ∧
    ¬ ((101 : ℚ)/100 ≤ 1) := by
  constructor
  · norm_num [runCanvas, canvasStep, initCanvas, clampPt, pointToolBox]
  · norm_num

/-- C6 amended: gesture coordinates are clamped into the unit square; the
box-tool and polygon-tool commits, the simulator boxes (for unit-range
random samples), and the normalizer boxes (for raw entries in [0,1000]
with ordered pairs) all satisfy the [0,1]-and-ordered invariant; the
point-tool box is ordered but only guaranteed to lie within
[-0.01, 1.01] — it escapes [0,1] by up to 0.01 at the image edges. -/
theorem C6_amended (x y : ℚ) (s e p : Pt) (pts : List Pt)
    (prompt concept : String) (now index nowM i : ℕ)
    (item : RawDetection) (a b c d : ℚ) (r : MockRand)
    (hs : InUnit s) (he : InUnit e) (hp : InUnit p)
    (hne : pts ≠ []) (hpts : ∀ q ∈ pts, InUnit q)
    (hbox : item.box_2d = [a, b, c, d])
    (ha : 0 ≤ a) (hac : a ≤ c) (hc : c ≤ 1000)
    (hb : 0 ≤ b) (hbd : b ≤ d) (hd : d ≤ 1000)
    (hr : MockRandOk r) :
    InUnit (clampPt x y) ∧
    BoxOk (dragBox s e) ∧
    BoxOk (polygonBox pts) ∧
    BoxOk ((normalizeDetection prompt now index item).box) ∧
    BoxOk ((mockAnn concept nowM i r).box) ∧
    ((pointToolBox p).ymin ≤ (pointToolBox p).ymax ∧
      (pointToolBox p).xmin ≤ (pointToolBox p).xmax ∧
      -(1/100) ≤ (pointToolBox p).xmin ∧ (pointToolBox p).xmax ≤ 1 + 1/100 ∧
      -(1/100) ≤ (pointToolBox p).ymin ∧ (pointToolBox p).ymax ≤ 1 + 1/100) := by
  obtain ⟨hsx0, hsx1, hsy0, hsy1⟩ := hs
  obtain ⟨hex0, hex1, hey0, hey1⟩ := he
  obtain ⟨hpx0, hpx1, hpy0, hpy1⟩ := hp
  obtain ⟨hw0, hw1, hh0, hh1, hx0, hx1, hy0, hy1⟩ := hr
  refine ⟨?_, ?_, ?_, ?_, ?_, ?_⟩
  · exact ⟨le_max_left _ _, max_le zero_le_one (min_le_left _ _),
      le_max_left _ _, max_le zero_le_one (min_le_left _ _)⟩
  · exact ⟨le_min hsy0 hey0, le_trans (min_le_left _ _) (le_max_left _ _),
      max_le hsy1 hey1, le_min hsx0 hex0,
      le_trans (min_le_left _ _) (le_max_left _ _), max_le hsx1 hex1⟩
  · have hxb := listMin_listMax_bounds 0 1 (pts.map Pt.x)
      (by simpa using hne)
      (by
        intro v hv
        obtain ⟨q, hq, rfl⟩ := List.mem_map.mp hv
        exact ⟨(hpts q hq).1, (hpts q hq).2.1⟩)
    have hyb := listMin_listMax_bounds 0 1 (pts.map Pt.y)
      (by simpa using hne)
      (by
        intro v hv
        obtain ⟨q, hq, rfl⟩ := List.mem_map.mp hv
        exact ⟨(hpts q hq).2.2.1, (hpts q hq).2.2.2⟩)
    exact ⟨hyb.1, hyb.2.1, hyb.2.2, hxb.1, hxb.2.1, hxb.2.2⟩
  · simp only [normalizeDetection, hbox]
    refine ⟨?_, ?_, ?_, ?_, ?_, ?_⟩ <;>
      simp only [List.getD_cons_zero, List.getD_cons_succ]
    · positivity
    · gcongr
    · rw [div_le_one (by norm_num : (0:ℚ) < 1000)]; exact hc
    · positivity
    · gcongr
    · rw [div_le_one (by norm_num : (0:ℚ) < 1000)]; exact hd
  · have hwge : 0.05 ≤ r.widthR * 0.2 + 0.05 := by linarith
    have hhge : 0.1 ≤ r.heightR * 0.3 + 0.1 := by linarith
    have hwc : 0 ≤ 1 - (r.widthR * 0.2 + 0.05) := by linarith
    have hhc : 0 ≤ 1 - (r.heightR * 0.3 + 0.1) := by linarith
    have hxnn : 0 ≤ r.xR * (1 - (r.widthR * 0.2 + 0.05)) := mul_nonneg hx0 hwc
    have hynn : 0 ≤ r.yR * (1 - (r.heightR * 0.3 + 0.1)) := mul_nonneg hy0 hhc
    have hxub : r.xR * (1 - (r.widthR * 0.2 + 0.05)) ≤
        1 - (r.widthR * 0.2 + 0.05) := mul_le_of_le_one_left hwc hx1
    have hyub : r.yR * (1 - (r.heightR * 0.3 + 0.1)) ≤
        1 - (r.heightR * 0.3 + 0.1) := mul_le_of_le_one_left hhc hy1
    simp only [mockAnn, BoxOk]
    refine ⟨hynn, by linarith, by linarith, hxnn, by linarith, by linarith⟩
  · simp only [pointToolBox]
    refine ⟨by linarith, by linarith, by linarith, by linarith, by linarith,
      by linarith⟩

/-- Witness for C6's amended theorem at concrete gesture, detector and
simulator inputs. -/
theorem C6_witness :
    InUnit (clampPt 0.5 2) ∧
    BoxOk (dragBox { x := 0.2, y := 0.2 } { x := 0.5, y := 0.6 }) ∧
    BoxOk (polygonBox [{ x := 0.1, y := 0.1 }, { x := 0.3, y := 0.1 },
      { x := 0.2, y := 0.3 }]) ∧
    BoxOk ((normalizeDetection "cat" 7 0
      { box_2d := [100, 200, 400, 600] }).box) ∧
    BoxOk ((mockAnn "person" 7 0
      { widthR := 0.5, heightR := 0.5, xR := 0.5, yR := 0.5, confR := 0.9,
        depthR := 0.5, ctxR := 0.5, orientR := 0.5 }).box) ∧
    ((pointToolBox { x := 0.4, y := 0.4 }).ymin ≤
        (pointToolBox { x := 0.4, y := 0.4 }).ymax ∧
      (pointToolBox { x := 0.4, y := 0.4 }).xmin ≤
        (pointToolBox { x := 0.4, y := 0.4 }).xmax ∧
      -(1/100) ≤ (pointToolBox { x := 0.4, y := 0.4 }).xmin ∧
      (pointToolBox { x := 0.4, y := 0.4 }).xmax ≤ 1 + 1/100 ∧
      -(1/100) ≤ (pointToolBox { x := 0.4, y := 0.4 }).ymin ∧
      (pointToolBox { x := 0.4, y := 0.4 }).ymax ≤ 1 + 1/100) :=
  C6_amended 0.5 2 { x := 0.2, y := 0.2 } { x := 0.5, y := 0.6 }
    { x := 0.4, y := 0.4 }
    [{ x := 0.1, y := 0.1 }, { x := 0.3, y := 0.1 }, { x := 0.2, y := 0.3 }]
    "cat" "person" 7 0 7 0 { box_2d := [100, 200, 400, 600] } 100 200 400 600
    { widthR := 0.5, heightR := 0.5, xR := 0.5, yR := 0.5, confR := 0.9,
      depthR := 0.5, ctxR := 0.5, orientR := 0.5 }
    (by norm_num [InUnit]) (by norm_num [InUnit]) (by norm_num [InUnit])
    (by simp)
    (by
      intro q hq
      simp only [List.mem_cons, List.mem_singleton] at hq
      rcases hq with rfl | rfl | rfl | h
      · exact ⟨by norm_num, by norm_num, by norm_num, by norm_num⟩
      · exact ⟨by norm_num, by norm_num, by norm_num, by norm_num⟩
      · exact ⟨by norm_num, by norm_num, by norm_num, by norm_num⟩
      · cases h)
    rfl (by norm_num) (by norm_num) (by norm_num) (by norm_num) (by norm_num)
    (by norm_num) (by norm_num [MockRandOk])

/-! ## Claim C7: duplicate concept submission is a no-op -/

/-- C7: submitting a concept whose derived id (trimmed, lowercased,
whitespace runs to hyphens) collides with an existing concept's id leaves
the whole store unchanged, whatever the detector would have returned. -/
theorem C7_duplicate_submission_noop (s : AppState) (rawName : String)
    (detected : List Ann)
    (hdup : ∃ c ∈ s.concepts, c.id = deriveConceptId (jsTrim rawName)) :
    submitConcept s rawName detected = s := by
  unfold submitConcept
  by_cases hname : jsTrim rawName = ""
  · simp [hname]
  · obtain ⟨c, hc, hid⟩ := hdup
    have hany : s.concepts.any
        (fun c => c.id == deriveConceptId (jsTrim rawName)) = true :=
      List.any_eq_true.mpr ⟨c, hc, by simp [hid]⟩
    simp [hname, hany]

/-! ## Claim C2: reject removes one annotation and recounts its concept -/

/-- Filtering by `q` is unaffected by a prior filter by `p` when `q`
implies `p` on the list. -/
lemma length_filter_filter_of_imp {α : Type} {l : List α} {p q : α → Bool}
    (h : ∀ x ∈ l, q x = true → p x = true) :
    ((l.filter p).filter q).length = (l.filter q).length := by
  induction l with
  | nil => rfl
  | cons x xs ih =>
      have ih' := ih (fun a ha hq => h a (List.mem_cons_of_mem x ha) hq)
      simp only [List.filter_filter] at ih' ⊢
      cases hq : q x with
      | true =>
          have hp := h x (List.mem_cons_self x xs) hq
          simp [List.filter_cons, hp, hq, ih']
      | false =>
          cases hp : p x with
          | true => simp [List.filter_cons, hp, hq, ih']
          | false => simp [List.filter_cons, hp, hq, ih']

/-- Filtering a duplicate-free list whose only failing element is `t`
shortens it by exactly one. -/
lemma length_filter_sub_one {α : Type} {l : List α} {p : α → Bool} {t : α}
    (hmem : t ∈ l) (hnd : l.Nodup) (hp : p t = false)
    (huniq : ∀ a ∈ l, p a = false → a = t) :
    (l.filter p).length + 1 = l.length := by
  induction l with
  | nil => cases hmem
  | cons x xs ih =>
      rcases List.mem_cons.mp hmem with rfl | hmem'
      · have hall : ∀ a ∈ xs, p a = true := by
          intro a ha
          by_contra hpa
          have ha' : a = t :=
            huniq a (List.mem_cons_of_mem _ ha) (Bool.eq_false_iff.mpr hpa)
          exact (List.nodup_cons.mp hnd).1 (ha' ▸ ha)
        simp [List.filter_cons, hp, List.filter_eq_self.mpr hall]
      · have hx : x ≠ t := by
          rintro rfl
          exact (List.nodup_cons.mp hnd).1 hmem'
        have hpx : p x = true := by
          by_contra hpx
          exact hx (huniq x (List.mem_cons_self x xs) (Bool.eq_false_iff.mpr hpx))
        have hrec := ih hmem' (List.nodup_cons.mp hnd).2
          (fun a ha hpa => huniq a (List.mem_cons_of_mem x ha) hpa)
        simp only [List.filter_cons, hpx, if_true, List.length_cons]
        omega

/-- When an annotation with the sought id is present and ids are unique,
the source's `annotations.find(...)` resolves to exactly it. -/
lemma find?_id_eq_self {s : AppState} {t : Ann} (hmem : t ∈ s.annotations)
    (hnd : (s.annotations.map Ann.id).Nodup) :
    s.annotations.find? (fun a => a.id == t.id) = some t := by
  have hsome : (s.annotations.find? (fun a => a.id == t.id)).isSome :=
    List.find?_isSome.mpr ⟨t, hmem, by simp⟩
  obtain ⟨u, hu⟩ := Option.isSome_iff_exists.mp hsome
  have humem := List.mem_of_find?_eq_some hu
  have hup : u.id = t.id := by simpa using List.find?_some hu
  rw [hu, List.inj_on_of_nodup_map hnd humem hmem hup]

/-- C2: in a store with unique annotation ids containing annotation `t`,
`reject t.id` removes exactly `t` (every other annotation survives), the
annotation list shrinks by one, the live count of `t`'s concept drops by
one, and every concept is mapped to itself except the owner, whose
`instanceCount` becomes the new live count — so its `presenceScore` and all
other fields are untouched. -/
theorem C2_reject_removes_one (s : AppState) (t : Ann)
    (hmem : t ∈ s.annotations)
    (hnd : (s.annotations.map Ann.id).Nodup) :
    (∀ a, a ∈ (rejectMask s t.id).annotations ↔
      (a ∈ s.annotations ∧ a ≠ t)) ∧
    (rejectMask s t.id).annotations.length + 1 = s.annotations.length ∧
    liveCount (rejectMask s t.id).annotations t.conceptId + 1 =
      liveCount s.annotations t.conceptId ∧
    (rejectMask s t.id).concepts = s.concepts.map (fun c =>
      if c.id = t.conceptId then
        { c with instanceCount :=
            liveCount (rejectMask s t.id).annotations c.id }
      else c) := by
  have hndl : s.annotations.Nodup := List.Nodup.of_map Ann.id hnd
  have hinj : ∀ a ∈ s.annotations, a.id = t.id → a = t :=
    fun a ha hid => List.inj_on_of_nodup_map hnd ha hmem hid
  have hfind := find?_id_eq_self hmem hnd
  refine ⟨?_, ?_, ?_, ?_⟩
  · intro a
    simp only [rejectMask, List.mem_filter, Bool.not_eq_eq_eq_not,
      Bool.not_true, beq_eq_false_iff_ne, ne_eq]
    constructor
    · rintro ⟨ha, hne⟩
      exact ⟨ha, fun h => hne (by rw [h])⟩
    · rintro ⟨ha, hne⟩
      exact ⟨ha, fun h => hne (hinj a ha h)⟩
  · exact length_filter_sub_one hmem hndl (by simp)
      (fun a ha hpa => hinj a ha (by simpa using hpa))
  · show liveCount (s.annotations.filter _) t.conceptId + 1 = _
    simp only [liveCount, List.filter_filter]
    have hswap :
        (s.annotations.filter
          (fun a => a.conceptId == t.conceptId && !(a.id == t.id))) =
        ((s.annotations.filter (fun a => a.conceptId == t.conceptId)).filter
          (fun a => !(a.id == t.id))) := by
      rw [List.filter_filter]
      exact List.filter_congr (fun a _ => Bool.and_comm _ _)
    rw [hswap]
    have hmemL : t ∈ s.annotations.filter
        (fun a => a.conceptId == t.conceptId) :=
      List.mem_filter.mpr ⟨hmem, by simp⟩
    refine length_filter_sub_one hmemL (hndl.filter _) (by simp) ?_
    intro a ha hpa
    exact hinj a (List.mem_filter.mp ha).1 (by simpa using hpa)
  · simp only [rejectMask, hfind]
    refine List.map_congr_left (fun c _ => ?_)
    by_cases hcid : c.id = t.conceptId
    · simp [hcid, liveCount, List.filter_filter]
    · simp [hcid]

/-- Witness for C2 at the concrete store: rejecting "a1" shrinks the
annotation list and the owner's live count by exactly one. -/
theorem C2_witness :
    (rejectMask c2Store "a1").annotations.length + 1 =
      c2Store.annotations.length ∧
    liveCount (rejectMask c2Store "a1").annotations "red-car" + 1 =
      liveCount c2Store.annotations "red-car" :=
  ⟨(C2_reject_removes_one c2Store c2A1 (List.mem_cons_self _ _)
      (by decide)).2.1,
   (C2_reject_removes_one c2Store c2A1 (List.mem_cons_self _ _)
      (by decide)).2.2.1⟩

/-! ## Claim C1: store consistency invariant -/

/-- A mapped annotation list has the same live counts when the map
preserves `conceptId`. -/
lemma liveCount_map_of_conceptId_eq (f : Ann → Ann)
    (hf : ∀ a, (f a).conceptId = a.conceptId) (l : List Ann) (cid : String) :
    liveCount (l.map f) cid = liveCount l cid := by
  simp only [liveCount]
  induction l with
  | nil => rfl
  | cons x xs ih =>
      simp only [List.map_cons, List.filter_cons, hf x]
      cases h : (x.conceptId == cid) <;> simp [h, ih]

/-- A mapped annotation list has the same id sequence when the map
preserves `id`. -/
lemma map_id_of_preserves (f : Ann → Ann) (hf : ∀ a, (f a).id = a.id)
    (l : List Ann) : (l.map f).map Ann.id = l.map Ann.id := by
  rw [List.map_map]
  exact List.map_congr_left (fun a _ => hf a)

/-- `verifyMask` preserves the store invariant: it maps annotations while
keeping their ids and concept ids. -/
lemma invariant_verify (s : AppState) (rid : String) (hinv : Invariant s) :
    Invariant (verifyMask s rid) := by
  obtain ⟨hcons, horph, hnd⟩ := hinv
  have hfid : ∀ a : Ann,
      ((if a.id == rid then { a with isVerified := true } else a) : Ann).id =
        a.id := by
    intro a
    by_cases h : (a.id == rid) = true <;> simp [h]
  have hfcid : ∀ a : Ann,
      ((if a.id == rid then { a with isVerified := true } else a) : Ann).conceptId =
        a.conceptId := by
    intro a
    by_cases h : (a.id == rid) = true <;> simp [h]
  refine ⟨?_, ?_, ?_⟩
  · intro c hc
    rw [show (verifyMask s rid).annotations = s.annotations.map _ from rfl,
      liveCount_map_of_conceptId_eq _ hfcid]
    exact hcons c hc
  · intro a ha
    obtain ⟨a0, ha0, rfl⟩ := List.mem_map.mp ha
    obtain ⟨c, hc, hid⟩ := horph a0 ha0
    exact ⟨c, hc, by rw [hid, hfcid a0]⟩
  · rw [show (verifyMask s rid).annotations = s.annotations.map _ from rfl,
      map_id_of_preserves _ hfid]
    exact hnd

/-- `toggleVisibility` preserves the store invariant: it maps concepts
while keeping their ids and instance counts. -/
lemma invariant_toggle (s : AppState) (cid : String) (hinv : Invariant s) :
    Invariant (toggleVisibility s cid) := by
  obtain ⟨hcons, horph, hnd⟩ := hinv
  refine ⟨?_, ?_, hnd⟩
  · intro c hc
    obtain ⟨c0, hc0, rfl⟩ := List.mem_map.mp hc
    by_cases h : (c0.id == cid) = true <;> simpa [h] using hcons c0 hc0
  · intro a ha
    obtain ⟨c, hc, hid⟩ := horph a ha
    refine ⟨if c.id == cid then { c with isVisible := !c.isVisible } else c,
      List.mem_map_of_mem _ hc, ?_⟩
    by_cases h : (c.id == cid) = true
    · rw [if_pos h]; exact hid
    · rw [if_neg h]; exact hid

/-- `deleteConcept` preserves the store invariant: the cascade removes
exactly the annotations of the removed concept. -/
lemma invariant_deleteConcept (s : AppState) (did : String)
    (hinv : Invariant s) : Invariant (deleteConcept s did) := by
  obtain ⟨hcons, horph, hnd⟩ := hinv
  refine ⟨?_, ?_, ?_⟩
  · intro c hc
    obtain ⟨hcmem, hcid⟩ := List.mem_filter.mp hc
    have hcid' : c.id ≠ did := by simpa using hcid
    have heq : liveCount
        (s.annotations.filter (fun a => !(a.conceptId == did))) c.id =
        liveCount s.annotations c.id := by
      simp only [liveCount]
      refine length_filter_filter_of_imp (fun a _ hq => ?_)
      have hac : a.conceptId = c.id := by simpa using hq
      simp [hac, hcid']
    rw [show (deleteConcept s did).annotations =
      s.annotations.filter (fun a => !(a.conceptId == did)) from rfl, heq]
    exact hcons c hcmem
  · intro a ha
    obtain ⟨hamem, haid⟩ := List.mem_filter.mp ha
    have haid' : a.conceptId ≠ did := by simpa using haid
    obtain ⟨c, hc, hid⟩ := horph a hamem
    exact ⟨c, List.mem_filter.mpr ⟨hc, by simp [hid, haid']⟩, hid⟩
  · exact List.Nodup.sublist ((List.filter_sublist _).map Ann.id) hnd

/-- `rejectMask` preserves the store invariant. -/
lemma invariant_reject (s : AppState) (rid : String) (hinv : Invariant s) :
    Invariant (rejectMask s rid) := by
  obtain ⟨hcons, horph, hnd⟩ := hinv
  have hsubnd : ((s.annotations.filter
      (fun a => !(a.id == rid))).map Ann.id).Nodup :=
    List.Nodup.sublist ((List.filter_sublist _).map Ann.id) hnd
  cases hfind : s.annotations.find? (fun a => a.id == rid) with
  | none =>
      have hall : ∀ a ∈ s.annotations, (!(a.id == rid)) = true := by
        intro a ha
        simpa using List.find?_eq_none.mp hfind a ha
      have hanns : s.annotations.filter (fun a => !(a.id == rid)) =
          s.annotations := List.filter_eq_self.mpr hall
      have hstate : rejectMask s rid = s := by
        simp only [rejectMask, hfind, hanns]
        simp
      rw [hstate]
      exact ⟨hcons, horph, hnd⟩
  | some t =>
      have htmem := List.mem_of_find?_eq_some hfind
      have htid : t.id = rid := by simpa using List.find?_some hfind
      have hconcs : (rejectMask s rid).concepts = s.concepts.map (fun c =>
          if (c.id == t.conceptId) = true then
            { c with instanceCount :=
                (s.annotations.filter
                  (fun a => a.conceptId == c.id && !(a.id == rid))).length }
          else c) := by
        simp only [rejectMask, hfind]
      have hanns2 : (rejectMask s rid).annotations =
          s.annotations.filter (fun a => !(a.id == rid)) := rfl
      refine ⟨?_, ?_, ?_⟩
      · intro c hc
        rw [hconcs] at hc
        obtain ⟨c0, hc0, rfl⟩ := List.mem_map.mp hc
        rw [hanns2]
        by_cases hown : (c0.id == t.conceptId) = true
        · rw [if_pos hown]
          simp [liveCount, List.filter_filter]
        · rw [if_neg hown]
          have heq : liveCount
              (s.annotations.filter (fun a => !(a.id == rid))) c0.id =
              liveCount s.annotations c0.id := by
            simp only [liveCount]
            refine length_filter_filter_of_imp (fun a ha hq => ?_)
            have hac : a.conceptId = c0.id := by simpa using hq
            by_contra hbad
            have haid : a.id = t.id := by
              rw [htid]; simpa using hbad
            have hat : a = t := List.inj_on_of_nodup_map hnd ha htmem haid
            rw [hat] at hac
            rw [← hac] at hown
            simp at hown
          rw [heq]
          exact hcons c0 hc0
      · intro a ha
        rw [hanns2] at ha
        obtain ⟨hamem, -⟩ := List.mem_filter.mp ha
        obtain ⟨c, hc, hid⟩ := horph a hamem
        rw [hconcs]
        refine ⟨if (c.id == t.conceptId) = true then
            { c with instanceCount :=
                (s.annotations.filter
                  (fun a => a.conceptId == c.id && !(a.id == rid))).length }
          else c, List.mem_map_of_mem _ hc, ?_⟩
        by_cases hown : (c.id == t.conceptId) = true
        · rw [if_pos hown]; exact hid
        · rw [if_neg hown]; exact hid
      · exact hsubnd

/-- `submitConcept` preserves the store invariant for a fresh batch. -/
lemma invariant_submit (s : AppState) (rawName : String)
    (detected : List Ann) (hfresh : freshBatch s detected = true)
    (hinv : Invariant s) : Invariant (submitConcept s rawName detected) := by
  obtain ⟨hcons, horph, hnd⟩ := hinv
  rw [freshBatch, Bool.and_eq_true, decide_eq_true_eq] at hfresh
  obtain ⟨hfnd, hfall⟩ := hfresh
  have hdisj : ∀ a ∈ detected, ∀ b ∈ s.annotations, a.id ≠ b.id := by
    intro a ha b hb
    have := List.all_eq_true.mp (List.all_eq_true.mp hfall a ha) b hb
    simpa using this
  by_cases hname : jsTrim rawName = ""
  · rw [show submitConcept s rawName detected = s by
      simp [submitConcept, hname]]
    exact ⟨hcons, horph, hnd⟩
  · set cid := deriveConceptId (jsTrim rawName) with hcid
    by_cases hdup : s.concepts.any (fun c => c.id == cid) = true
    · rw [show submitConcept s rawName detected = s by
        simp [submitConcept, hname, ← hcid, hdup]]
      exact ⟨hcons, horph, hnd⟩
    · have hnocol : ∀ c ∈ s.concepts, c.id ≠ cid := by
        intro c hc h
        exact hdup (List.any_eq_true.mpr ⟨c, hc, by simp [h]⟩)
      have hnewanns : ∀ a ∈ detected.map
          (fun a => ({ a with conceptId := cid } : Ann)), a.conceptId = cid := by
        intro a ha
        obtain ⟨a0, -, rfl⟩ := List.mem_map.mp ha
        rfl
      have hstate : submitConcept s rawName detected =
          { concepts := s.concepts ++
              [{ id := cid
                 name := jsTrim rawName
                 color := COLORS.getD (s.concepts.length % COLORS.length) ""
                 presenceScore :=
                   if 0 < (detected.map
                       (fun a => ({ a with conceptId := cid } : Ann))).length then
                     ((detected.map
                         (fun a => ({ a with conceptId := cid } : Ann))).map
                       Ann.confidence).sum /
                       ((detected.map
                         (fun a => ({ a with conceptId := cid } : Ann))).length : ℚ)
                   else 0.1
                 instanceCount := (detected.map
                     (fun a => ({ a with conceptId := cid } : Ann))).length
                 isVisible := true }]
            annotations := s.annotations ++ detected.map
              (fun a => ({ a with conceptId := cid } : Ann)) } := by
        simp [submitConcept, hname, ← hcid, hdup]
      rw [hstate]
      set newAnns := detected.map
        (fun a => ({ a with conceptId := cid } : Ann)) with hnew
      have hnewids : newAnns.map Ann.id = detected.map Ann.id := by
        rw [hnew, List.map_map]
        exact List.map_congr_left (fun a _ => rfl)
      refine ⟨?_, ?_, ?_⟩
      · intro c hc
        rcases List.mem_append.mp hc with hcold | hcnew
        · have hfnew : newAnns.filter (fun a => a.conceptId == c.id) = [] := by
            rw [List.filter_eq_nil_iff]
            intro a ha
            have := hnewanns a ha
            simp [this]
            exact fun hbad => hnocol c hcold hbad.symm
          show c.instanceCount =
            liveCount (s.annotations ++ newAnns) c.id
          rw [liveCount, List.filter_append, hfnew, List.append_nil]
          exact hcons c hcold
        · have hceq := List.mem_singleton.mp hcnew
          subst hceq
          have hfold : s.annotations.filter (fun a => a.conceptId == cid) = [] := by
            rw [List.filter_eq_nil_iff]
            intro a ha
            obtain ⟨c0, hc0, hid0⟩ := horph a ha
            simp only [beq_iff_eq]
            rw [← hid0]
            exact fun hbad => hnocol c0 hc0 hbad
          have hfnew : newAnns.filter (fun a => a.conceptId == cid) = newAnns :=
            List.filter_eq_self.mpr (fun a ha => by simp [hnewanns a ha])
          show newAnns.length = liveCount (s.annotations ++ newAnns) cid
          rw [liveCount, List.filter_append, hfold, hfnew, List.nil_append]
      · intro a ha
        rcases List.mem_append.mp ha with haold | hanew
        · obtain ⟨c, hc, hid⟩ := horph a haold
          exact ⟨c, List.mem_append_left _ hc, hid⟩
        · refine ⟨_, List.mem_append_right _ (List.mem_singleton_self _), ?_⟩
          exact (hnewanns a hanew).symm
      · rw [List.map_append, List.nodup_append]
        refine ⟨hnd, by rw [hnewids]; exact hfnd, ?_⟩
        intro x hxold hxnew
        rw [hnewids] at hxnew
        obtain ⟨b, hb, rfl⟩ := List.mem_map.mp hxold
        obtain ⟨a, ha, haid⟩ := List.mem_map.mp hxnew
        exact hdisj a ha b hb haid

/-- Every valid mutation preserves the store invariant. -/
lemma invariant_applyOp (s : AppState) (op : StoreOp)
    (hv : validOp s op = true) (hinv : Invariant s) :
    Invariant (applyOp s op) := by
  cases op with
  | submit rawName detected => exact invariant_submit s rawName detected hv hinv
  | verify rid => exact invariant_verify s rid hinv
  | reject rid => exact invariant_reject s rid hinv
  | deleteC cid => exact invariant_deleteConcept s cid hinv
  | toggleV cid => exact invariant_toggle s cid hinv

/-- The invariant is inductive along every valid trace. -/
lemma invariant_runOps (ops : List StoreOp) (s : AppState)
    (hv : validTrace s ops = true) (hinv : Invariant s) :
    Invariant (runOps s ops) := by
  induction ops generalizing s with
  | nil => exact hinv
  | cons op rest ih =>
      rw [validTrace, Bool.and_eq_true] at hv
      exact ih _ hv.2 (invariant_applyOp s op hv.1 hinv)

/-- C1: after every valid sequence of public mutations from the empty
store (submissions carrying fresh batch ids, as the timestamp-based id
generation is meant to ensure), every concept's `instanceCount` equals the
number of live annotations referencing its id, and every annotation
references an existing concept — `deleteConcept` cascades, leaving no
orphans. -/
theorem C1_store_consistency (ops : List StoreOp)
    (hv : validTrace initState ops = true) :
    (∀ c ∈ (runOps initState ops).concepts,
        c.instanceCount = liveCount (runOps initState ops).annotations c.id) ∧
    (∀ a ∈ (runOps initState ops).annotations,
        ∃ c ∈ (runOps initState ops).concepts, c.id = a.conceptId) := by
  have h := invariant_runOps ops initState hv
    ⟨fun c hc => absurd hc (List.not_mem_nil c),
     fun a ha => absurd ha (List.not_mem_nil a),
     List.nodup_nil⟩
  exact ⟨h.1, h.2.1⟩

/-- Witness for C1 on the demo trace. -/
theorem C1_witness :
    (∀ c ∈ (runOps initState demoOps).concepts,
        c.instanceCount =
          liveCount (runOps initState demoOps).annotations c.id) ∧
    (∀ a ∈ (runOps initState demoOps).annotations,
        ∃ c ∈ (runOps initState demoOps).concepts, c.id = a.conceptId) :=
  C1_store_consistency demoOps (by decide)

/-- Witness for C7: a colliding re-submission with different spacing and
casing does not change the store. -/
theorem C7_witness :
    submitConcept
      { concepts := [{ id := "red-car", name := "Red Car", color := "#6366f1",
                       presenceScore := 0.9, instanceCount := 0, isVisible := true }],
        annotations := [] } "  Red   Car " [] =
      { concepts := [{ id := "red-car", name := "Red Car", color := "#6366f1",
                       presenceScore := 0.9, instanceCount := 0, isVisible := true }],
        annotations := [] } :=
  C7_duplicate_submission_noop _ _ _
    ⟨{ id := "red-car", name := "Red Car", color := "#6366f1",
       presenceScore := 0.9, instanceCount := 0, isVisible := true },
     by simp, by decide⟩

end SAM3
